import Mathlib

/-!
Verification of the Kohya_prep image-preparation pipeline
(src/mov2Images.py and src/resizeImages.py).

Images are modelled as dimension data plus a total pixel function.
External collaborators — the cv2.resize interpolator, the PIL thumbnail
resampler, the grabCut segmentation engine, the face/landmark detector
and the random source — are injected as explicit parameters, following
the design notes of the specification.  Python floats are idealised as
exact rationals; Python int() truncation and round() half-to-even are
modelled explicitly.
-/

namespace KohyaPrep

/-- Truncation toward zero: the semantics of Python int() on a float. -/
def pyInt (q : ℚ) : ℤ := if 0 ≤ q then ⌊q⌋ else ⌈q⌉

/-- Round half to even: the semantics of Python round() on a float. -/
def pyRound (q : ℚ) : ℤ :=
  if q - ⌊q⌋ < 1/2 then ⌊q⌋
  else if (1 : ℚ)/2 < q - ⌊q⌋ then ⌊q⌋ + 1
  else if ⌊q⌋ % 2 = 0 then ⌊q⌋ else ⌊q⌋ + 1

/-- A BGR (or RGB) pixel of an OpenCV frame (a numpy array row entry). -/
abbrev Pix3 := ℕ × ℕ × ℕ

/-- An OpenCV raster frame: height × width array of three-channel pixels;
px takes the row index first, as numpy indexing does. -/
structure CVImage where
  height : ℕ
  width : ℕ
  px : ℕ → ℕ → Pix3

/-- src/mov2Images.py, resize_and_pad, at square target size N.
scale = N / max(height, width); each dimension becomes int(dim * scale),
cv2.resize produces that size (interior pixel content is the external
interpolator resample), and cv2.copyMakeBorder adds
(N - newDim) // 2 rows/cols of padColor (random_color in the source) on
each side. -/
def resize_and_pad (img : CVImage) (N : ℕ) (padColor : Pix3)
    (resample : ℕ → ℕ → Pix3) : CVImage :=
  let m := max img.height img.width
  let newH := img.height * N / m
  let newW := img.width * N / m
  let padH := (N - newH) / 2
  let padW := (N - newW) / 2
  { height := newH + 2 * padH
    width := newW + 2 * padW
    px := fun y x =>
      if padH ≤ y ∧ y < padH + newH ∧ padW ≤ x ∧ x < padW + newW then
        resample (y - padH) (x - padW)
      else padColor }

/-- The four clamped head-rectangle coordinates computed inside
get_head_crop (src/mov2Images.py). -/
structure HeadRect where
  top : ℤ
  bottom : ℤ
  left : ℤ
  right : ℤ

/-- src/mov2Images.py, get_head_crop, the coordinate computation:
head_top = int(max(0, top - (bottom - top) * 0.5)),
head_bottom = int(min(frameH, bottom + (bottom - top) * 0.25)),
head_left = int(max(0, left - (right - left) * 0.1)),
head_right = int(min(frameW, right + (right - left) * 0.1)). -/
def headCropRect (frameH frameW : ℕ) (top right bottom left : ℤ) : HeadRect :=
  { top := pyInt (max 0 ((top : ℚ) - ((bottom : ℚ) - (top : ℚ)) * (1/2)))
    bottom := pyInt (min (frameH : ℚ) ((bottom : ℚ) + ((bottom : ℚ) - (top : ℚ)) * (1/4)))
    left := pyInt (max 0 ((left : ℚ) - ((right : ℚ) - (left : ℚ)) * (1/10)))
    right := pyInt (min (frameW : ℚ) ((right : ℚ) + ((right : ℚ) - (left : ℚ)) * (1/10))) }

/-- numpy slice frame[t:b, l:r] for nonnegative indices: slice bounds are
clamped to the array extent. -/
def cvCrop (img : CVImage) (t b l r : ℕ) : CVImage :=
  { height := min b img.height - min t img.height
    width := min r img.width - min l img.width
    px := fun y x => img.px (min t img.height + y) (min l img.width + x) }

/-- src/mov2Images.py, get_head_crop: slice out the clamped head
rectangle and resize_and_pad it to the default 512 × 512 target. -/
def get_head_crop (frame : CVImage) (top right bottom left : ℤ)
    (padColor : Pix3) (resample : ℕ → ℕ → Pix3) : CVImage :=
  let hr := headCropRect frame.height frame.width top right bottom left
  resize_and_pad (cvCrop frame hr.top.toNat hr.bottom.toNat hr.left.toNat hr.right.toNat)
    512 padColor resample

/-- A face bounding box as face_recognition.face_locations returns it:
(top, right, bottom, left), nonnegative ints. -/
abbrev FaceLoc := ℕ × ℕ × ℕ × ℕ

/-- One landmark dictionary: named facial features with their points. -/
abbrev Landmarks := List (String × List (ℤ × ℤ))

/-- src/mov2Images.py, get_tags_from_landmarks: the keys of the landmark
dictionary. -/
def get_tags_from_landmarks (lm : Landmarks) : List String := lm.map (·.1)

/-- The face random.choice selects: the (choice mod length)-th element,
where choice is the injected random index. -/
def selectedFace (faces : List FaceLoc) (choice : ℕ) : FaceLoc :=
  faces.getD (choice % faces.length) (0, 0, 0, 0)

/-- The face crop frame[top:bottom, left:right] of a face box. -/
def faceCropOf (frame : CVImage) (loc : FaceLoc) : CVImage :=
  cvCrop frame loc.1 loc.2.2.1 loc.2.2.2 loc.2.1

/-- get_head_crop applied to an unpacked face box. -/
def headCropOf (frame : CVImage) (loc : FaceLoc) (padColor : Pix3)
    (resample : ℕ → ℕ → Pix3) : CVImage :=
  get_head_crop frame (loc.1 : ℤ) (loc.2.1 : ℤ) (loc.2.2.1 : ℤ) (loc.2.2.2 : ℤ)
    padColor resample

/-- src/mov2Images.py, get_random_face_crop_and_tags.  detect is the
face_recognition.face_landmarks collaborator, choice the injected random
index of random.choice, padColor and resample the collaborators of the
nested resize_and_pad. -/
def get_random_face_crop_and_tags (frame : CVImage) (face_locations : List FaceLoc)
    (choice : ℕ) (detect : CVImage → List Landmarks)
    (padColor : Pix3) (resample : ℕ → ℕ → Pix3) :
    Option CVImage × List String × Option CVImage × List String :=
  if face_locations = [] then (none, [], none, [])
  else
    let loc := selectedFace face_locations choice
    let face_crop := faceCropOf frame loc
    let face_landmarks_list := detect face_crop
    let feature_tags :=
      match face_landmarks_list with
      | [] => ["face", "forehead", "eye_region", "nose_region", "mouth_region", "chin_region"]
      | lm :: _ => get_tags_from_landmarks lm
    let entire_head_crop := headCropOf frame loc padColor resample
    let head_tags := ["head", "face"] ++ feature_tags
    (some face_crop, feature_tags, some entire_head_crop, head_tags)

/-- An RGBA pixel of a PIL image (alpha 255 = opaque). -/
abbrev Pix4 := ℕ × ℕ × ℕ × ℕ

/-- A PIL image: dimensions, pixels (column index first, as PIL does),
and the EXIF dictionary.  exif = none models an image whose _getexif
method is unavailable (the swallowed AttributeError) or returns None;
a missing tag in the dictionary is the swallowed KeyError. -/
structure PILImage where
  width : ℕ
  height : ℕ
  px : ℕ → ℕ → Pix4
  exif : Option (List (ℕ × ℕ))

/-- The EXIF tag number whose ExifTags.TAGS name is Orientation (0x0112),
the tag the loop in correct_orientation finds. -/
def orientationTag : ℕ := 274

/-- Lookup in the EXIF dictionary. -/
def exifLookup (e : List (ℕ × ℕ)) (tag : ℕ) : Option ℕ :=
  (e.find? (fun p => p.1 == tag)).map (·.2)

/-- The Orientation value correct_orientation reads, none when the
metadata is absent or the key is missing. -/
def exifOrientation (img : PILImage) : Option ℕ :=
  img.exif.bind (fun e => exifLookup e orientationTag)

/-- PIL img.rotate(180, expand=True).  The result is a fresh generic
Image object, so it no longer exposes _getexif: exif = none. -/
def rotate180 (img : PILImage) : PILImage :=
  { width := img.width, height := img.height
    px := fun x y => img.px (img.width - 1 - x) (img.height - 1 - y)
    exif := none }

/-- PIL img.rotate(90, expand=True): a quarter turn counterclockwise;
dimensions swap. -/
def rotate90 (img : PILImage) : PILImage :=
  { width := img.height, height := img.width
    px := fun x y => img.px (img.width - 1 - y) x
    exif := none }

/-- PIL img.rotate(270, expand=True): a quarter turn clockwise;
dimensions swap. -/
def rotate270 (img : PILImage) : PILImage :=
  { width := img.height, height := img.width
    px := fun x y => img.px y (img.height - 1 - x)
    exif := none }

/-- src/resizeImages.py, correct_orientation: rotate by 180 / 270 / 90
for Orientation values 3 / 6 / 8; any other value, a missing key, or
unreadable metadata leaves the image untouched (the except-pass arms). -/
def correct_orientation (img : PILImage) : PILImage :=
  match img.exif with
  | none => img
  | some e =>
    match exifLookup e orientationTag with
    | none => img
    | some v =>
      if v = 3 then rotate180 img
      else if v = 6 then rotate270 img
      else if v = 8 then rotate90 img
      else img

/-- round_aspect inside PIL Image.thumbnail: of floor and ceil pick the
one with the smaller key (ties to floor, as Python min does), then at
least 1. -/
def round_aspect (q : ℚ) (key : ℤ → ℚ) : ℤ :=
  max (if key ⌊q⌋ ≤ key ⌈q⌉ then ⌊q⌋ else ⌈q⌉) 1

/-- The target PIL Image.thumbnail((size, size)) picks in its resize
branch: with x = y = size, the x/y >= aspect test is 1 >= aspect. -/
def thumbnailTarget (w h size : ℕ) : ℤ × ℤ :=
  if 1 ≥ (w : ℚ) / (h : ℚ) then
    (round_aspect ((size : ℚ) * ((w : ℚ) / (h : ℚ)))
      (fun n => |(w : ℚ) / (h : ℚ) - (n : ℚ) / (size : ℚ)|),
     (size : ℤ))
  else
    ((size : ℤ),
     round_aspect ((size : ℚ) / ((w : ℚ) / (h : ℚ)))
       (fun n => if n = 0 then 0 else |(w : ℚ) / (h : ℚ) - (size : ℚ) / (n : ℚ)|))

/-- PIL Image.thumbnail((size, size)): unchanged when the image already
fits, otherwise resized to thumbnailTarget; the resampled content is the
external resample collaborator. -/
def thumbnail (img : PILImage) (size : ℕ) (resample : ℕ → ℕ → Pix4) : PILImage :=
  if img.width ≤ size ∧ img.height ≤ size then img
  else
    { width := (thumbnailTarget img.width img.height size).1.toNat
      height := (thumbnailTarget img.width img.height size).2.toNat
      px := resample
      exif := img.exif }

/-- PIL img.crop((l, t, r, b)): the box is rounded half-to-even and cast
to int (PIL's map(int, map(round, box))); the result is a fresh generic
Image (exif = none). -/
def pilCrop (img : PILImage) (l t r b : ℚ) : PILImage :=
  let x0 := pyRound l
  let y0 := pyRound t
  let x1 := pyRound r
  let y1 := pyRound b
  { width := (x1 - x0).toNat
    height := (y1 - y0).toNat
    px := fun x y => img.px (x0 + x).toNat (y0 + y).toNat
    exif := none }

/-- src/resizeImages.py, make_square_and_resize: center-crop a square of
side min(width, height) through fractional box coordinates, then
thumbnail into size × size. -/
def make_square_and_resize (img : PILImage) (size : ℕ)
    (resample : ℕ → ℕ → Pix4) : PILImage :=
  let short_side := min img.width img.height
  thumbnail
    (pilCrop img
      (((img.width : ℚ) - (short_side : ℚ)) / 2)
      (((img.height : ℚ) - (short_side : ℚ)) / 2)
      (((img.width : ℚ) + (short_side : ℚ)) / 2)
      (((img.height : ℚ) + (short_side : ℚ)) / 2))
    size resample

/-- The mask2 step of remove_background_using_grabcut: grabCut classes 0
(definite background) and 2 (probable background) are zeroed, classes 1
and 3 kept. -/
def gcKeep (m : ℕ) : ℕ := if m = 2 ∨ m = 0 then 0 else 1

/-- cv2.cvtColor BGR2GRAY, OpenCV's fixed-point luma formula. -/
def bgr2gray (b g r : ℕ) : ℕ := (1868 * b + 9617 * g + 4899 * r + 8192) / 16384

/-- cv2.threshold(gray, 0, 255, THRESH_BINARY): 255 where gray exceeds
the threshold 0, else 0. -/
def threshBinary (v : ℕ) : ℕ := if 0 < v then 255 else 0

/-- The alpha channel of an RGBA pixel. -/
def alphaOf (p : Pix4) : ℕ := p.2.2.2

/-- src/resizeImages.py, remove_background_using_grabcut.  The grabCut
engine is the external segmentation collaborator: gcMask y x is the
per-pixel class it writes into mask (0/2 background, 1/3 foreground).
Background pixels are multiplied to zero, the alpha channel is the
binary threshold of the grayscale of the masked image, and
Image.fromarray yields a fresh PIL image carrying no EXIF metadata. -/
def remove_background_using_grabcut (img : CVImage) (gcMask : ℕ → ℕ → ℕ) : PILImage :=
  { width := img.width
    height := img.height
    px := fun x y =>
      let p := img.px y x
      let keep := gcKeep (gcMask y x)
      let b := p.1 * keep
      let g := p.2.1 * keep
      let r := p.2.2 * keep
      (b, g, r, threshBinary (bgr2gray b g r))
    exif := none }

/-- src/resizeImages.py, process_image: remove background, correct
orientation, make square and resize; the returned image is the one saved
at output_path. -/
def process_image (input : CVImage) (gcMask : ℕ → ℕ → ℕ) (size : ℕ)
    (resample : ℕ → ℕ → Pix4) : PILImage :=
  make_square_and_resize
    (correct_orientation (remove_background_using_grabcut input gcMask))
    size resample

/-- The pipeline of claim C9 with the orientation stage removed:
background removal, then square-crop-and-resize. -/
def process_image_noOrient (input : CVImage) (gcMask : ℕ → ℕ → ℕ) (size : ℕ)
    (resample : ℕ → ℕ → Pix4) : PILImage :=
  make_square_and_resize (remove_background_using_grabcut input gcMask) size resample

/-- A filesystem path as a list of segments; os.path.join root seg
appends one segment. -/
abbrev FsPath := List String

/-- src/resizeImages.py, is_valid_image: Image.open plus verify, False
on IOError or SyntaxError.  A source file is modelled by whether that
check passes. -/
structure SourceFile where
  valid : Bool

/-- The validity check applied to a modelled source file. -/
def is_valid_image (f : SourceFile) : Bool := f.valid

/-- src/resizeImages.py, process_images lines 202-216: the directories
created under the target root, in creation order, with factor = 3 and
multiplier = factor * file_count. -/
def process_images_dirs (root : FsPath) (lora_name class_name : String)
    (file_count : ℕ) : List FsPath :=
  let multiplier := 3 * file_count
  let d1 := root ++ [toString multiplier ++ "_" ++ class_name]
  let d2 := d1 ++ ["dest"]
  let d3 := d2 ++ ["img"]
  [d1, d2, d3, d3 ++ ["log"], d3 ++ ["model"],
   d3 ++ [toString multiplier ++ "_" ++ class_name ++ " " ++ lora_name]]

/-- The directory tree claim C2 describes, written from the claim's
words: {root}/{3n}_{className}/dest/img/ containing log, model and the
leaf "{3n}_{className} {loraName}". -/
def claimedLayout (root : FsPath) (lora_name class_name : String)
    (file_count : ℕ) : List FsPath :=
  let inter := toString (3 * file_count) ++ "_" ++ class_name
  let leaf := toString (3 * file_count) ++ "_" ++ class_name ++ " " ++ lora_name
  [root ++ [inter],
   root ++ [inter, "dest"],
   root ++ [inter, "dest", "img"],
   root ++ [inter, "dest", "img", "log"],
   root ++ [inter, "dest", "img", "model"],
   root ++ [inter, "dest", "img", leaf]]

/-- Python str.lower(), modelled characterwise (ASCII). -/
def strLower (s : String) : String := ⟨s.data.map Char.toLower⟩

/-- The write loop of process_images (lines 220-227): sequence_number
starts at seq and advances only past files passing is_valid_image;
output names are image_{sequence_number}.{format lowercased}. -/
def outputLoop (seq : ℕ) (files : List SourceFile) (fmt : String) : List String :=
  match files with
  | [] => []
  | f :: rest =>
    if is_valid_image f then
      ("image_" ++ toString seq ++ "." ++ strLower fmt) :: outputLoop (seq + 1) rest fmt
    else outputLoop seq rest fmt

/-- src/resizeImages.py, process_images: the output file names written,
in order, starting the sequence at 1. -/
def process_images_names (files : List SourceFile) (fmt : String) : List String :=
  outputLoop 1 files fmt

/-! Concrete instances used by witnesses and counterexamples. -/

/-- An all-zero three-channel pixel field. -/
def pxZero3 : ℕ → ℕ → Pix3 := fun _ _ => (0, 0, 0)

/-- An all-zero RGBA pixel field. -/
def pxZero4 : ℕ → ℕ → Pix4 := fun _ _ => (0, 0, 0, 0)

/-- An opaque black RGBA pixel field. -/
def pxOpaque : ℕ → ℕ → Pix4 := fun _ _ => (0, 0, 0, 255)

/-- A 4-row, 3-column black OpenCV frame. -/
def img43 : CVImage := { height := 4, width := 3, px := pxZero3 }

/-- A 1 × 1 all-black OpenCV frame. -/
def blackImg : CVImage := { height := 1, width := 1, px := pxZero3 }

/-- A 1 × 1 OpenCV frame with a saturated blue pixel. -/
def colorImg : CVImage := { height := 1, width := 1, px := fun _ _ => (200, 10, 10) }

/-- A grabCut result marking everything definite foreground (class 1). -/
def fgMask : ℕ → ℕ → ℕ := fun _ _ => 1

/-- A grabCut result marking everything probable foreground (class 3). -/
def fgMask3 : ℕ → ℕ → ℕ := fun _ _ => 3

/-- A grabCut result marking everything definite background (class 0). -/
def bgMask : ℕ → ℕ → ℕ := fun _ _ => 0

/-- A 4-wide, 3-high PIL image. -/
def pimg43 : PILImage := { width := 4, height := 3, px := pxZero4, exif := none }

/-- A 6 × 6 PIL image. -/
def pimg66 : PILImage := { width := 6, height := 6, px := pxZero4, exif := none }

/-- A PIL image whose EXIF Orientation value is 3. -/
def exImg3 : PILImage := { width := 2, height := 2, px := pxOpaque, exif := some [(274, 3)] }

/-- A PIL image with no readable EXIF metadata. -/
def exImgNone : PILImage := { width := 2, height := 2, px := pxOpaque, exif := none }

/-- A 2 × 2 black frame. -/
def frame1 : CVImage := { height := 2, width := 2, px := pxZero3 }

/-- A landmark detector that finds nothing. -/
def noLandmarks : CVImage → List Landmarks := fun _ => []

/-- A single face box covering the top-left pixel. -/
def oneFace : List FaceLoc := [(0, 1, 1, 0)]

/-! Basic facts about the Python numeric conversions. -/

lemma pyInt_of_nonneg {q : ℚ} (h : 0 ≤ q) : pyInt q = ⌊q⌋ := if_pos h

lemma pyInt_nonneg {q : ℚ} (h : 0 ≤ q) : 0 ≤ pyInt q := by
  rw [pyInt_of_nonneg h]
  exact Int.floor_nonneg.mpr h

lemma pyInt_le_intCast {q : ℚ} {n : ℤ} (h0 : 0 ≤ q) (h : q ≤ (n : ℚ)) : pyInt q ≤ n := by
  rw [pyInt_of_nonneg h0]
  have h2 := Int.floor_mono h
  rwa [Int.floor_intCast] at h2

lemma intCast_le_pyInt {q : ℚ} {n : ℤ} (h0 : 0 ≤ q) (h : (n : ℚ) ≤ q) : n ≤ pyInt q := by
  rw [pyInt_of_nonneg h0]
  exact Int.le_floor.mpr h

lemma pyRound_intCast (n : ℤ) : pyRound (n : ℚ) = n := by
  have h : (n : ℚ) - ⌊(n : ℚ)⌋ < 1/2 := by
    rw [Int.floor_intCast]
    norm_num
  rw [pyRound, if_pos h, Int.floor_intCast]

lemma pyRound_int_add_half (n : ℤ) : pyRound ((n : ℚ) + 1/2) = n + n % 2 := by
  have hf : ⌊(n : ℚ) + 1/2⌋ = n := by
    rw [add_comm, Int.floor_add_int]
    norm_num
  have hfr : ((n : ℚ) + 1/2) - (⌊(n : ℚ) + 1/2⌋ : ℚ) = 1/2 := by
    rw [hf]
    ring
  rw [pyRound, hfr, hf]
  norm_num
  by_cases h : n % 2 = 0
  · simp [h]
  · have h1 : n % 2 = 1 := (Int.emod_two_eq_zero_or_one n).resolve_left h
    simp [h, h1]

/-! C1 — resize_and_pad output dimensions. -/

/-- C1 (amended): resize_and_pad scales the longer side to exactly N and
pads each side of the other dimension by floor((N - scaled)/2), so each
output dimension equals N - ((N - scaled) mod 2): exactly N when the
remainder is even, N - 1 when it is odd; the dimension of the longer
side is always exactly N. -/
theorem C1_resize_and_pad_dims (img : CVImage) (N : ℕ) (c : Pix3) (f : ℕ → ℕ → Pix3)
    (hh : 0 < img.height) (hw : 0 < img.width) :
    (resize_and_pad img N c f).height
        = N - (N - img.height * N / max img.height img.width) % 2 ∧
    (resize_and_pad img N c f).width
        = N - (N - img.width * N / max img.height img.width) % 2 ∧
    (img.width ≤ img.height → (resize_and_pad img N c f).height = N) ∧
    (img.height ≤ img.width → (resize_and_pad img N c f).width = N) := by
  have hm : 0 < max img.height img.width := lt_of_lt_of_le hh (le_max_left _ _)
  have hnewH : img.height * N / max img.height img.width ≤ N := by
    calc img.height * N / max img.height img.width
        ≤ max img.height img.width * N / max img.height img.width :=
          Nat.div_le_div_right (Nat.mul_le_mul_right N (le_max_left _ _))
      _ = N := Nat.mul_div_cancel_left N hm
  have hnewW : img.width * N / max img.height img.width ≤ N := by
    calc img.width * N / max img.height img.width
        ≤ max img.height img.width * N / max img.height img.width :=
          Nat.div_le_div_right (Nat.mul_le_mul_right N (le_max_right _ _))
      _ = N := Nat.mul_div_cancel_left N hm
  have hH : (resize_and_pad img N c f).height
      = img.height * N / max img.height img.width
        + 2 * ((N - img.height * N / max img.height img.width) / 2) := rfl
  have hW : (resize_and_pad img N c f).width
      = img.width * N / max img.height img.width
        + 2 * ((N - img.width * N / max img.height img.width) / 2) := rfl
  refine ⟨?_, ?_, ?_, ?_⟩
  · rw [hH]
    omega
  · rw [hW]
    omega
  · intro h
    have hmx : max img.height img.width = img.height := max_eq_left h
    rw [hH, hmx, Nat.mul_div_cancel_left N hh]
    omega
  · intro h
    have hmx : max img.height img.width = img.width := max_eq_right h
    rw [hW, hmx, Nat.mul_div_cancel_left N hw]
    omega

/-- C1 counterexample: a 4 × 3 frame at target 4 is padded to 4 × 3, not
to the claimed exact 4 × 4. -/
theorem C1_counterexample :
    ¬((resize_and_pad img43 4 (0, 0, 0) pxZero3).height = 4 ∧
      (resize_and_pad img43 4 (0, 0, 0) pxZero3).width = 4) := by
  decide

/-- C1 witness: the amended statement evaluated on the 4 × 3 frame. -/
theorem C1_resize_and_pad_dims_witness :
    (resize_and_pad img43 4 (0, 0, 0) pxZero3).height = 4 ∧
    (resize_and_pad img43 4 (0, 0, 0) pxZero3).width = 3 := by
  have h := C1_resize_and_pad_dims img43 4 (0, 0, 0) pxZero3 (by decide) (by decide)
  exact ⟨h.1.trans (by decide), h.2.1.trans (by decide)⟩

/-! C6 — the clamped head rectangle. -/

/-- C6 (amended): get_head_crop computes the four claimed max/min
formulas wrapped in Python int() truncation, and for every face rect
contained in the frame the resulting head rect is fully contained in
[0, frameHeight] × [0, frameWidth]; the computation is total. -/
theorem C6_head_rect_contained (H W : ℕ) (t r b l : ℤ)
    (ht : 0 ≤ t) (htb : t ≤ b) (hbH : b ≤ (H : ℤ))
    (hl : 0 ≤ l) (hlr : l ≤ r) (hrW : r ≤ (W : ℤ)) :
    0 ≤ (headCropRect H W t r b l).top ∧
    (headCropRect H W t r b l).top ≤ (headCropRect H W t r b l).bottom ∧
    (headCropRect H W t r b l).bottom ≤ (H : ℤ) ∧
    0 ≤ (headCropRect H W t r b l).left ∧
    (headCropRect H W t r b l).left ≤ (headCropRect H W t r b l).right ∧
    (headCropRect H W t r b l).right ≤ (W : ℤ) := by
  have htq : (0 : ℚ) ≤ (t : ℚ) := by exact_mod_cast ht
  have htbq : (t : ℚ) ≤ (b : ℚ) := by exact_mod_cast htb
  have hbHq : (b : ℚ) ≤ (H : ℚ) := by exact_mod_cast hbH
  have hlq : (0 : ℚ) ≤ (l : ℚ) := by exact_mod_cast hl
  have hlrq : (l : ℚ) ≤ (r : ℚ) := by exact_mod_cast hlr
  have hrWq : (r : ℚ) ≤ (W : ℚ) := by exact_mod_cast hrW
  have hHq : ((H : ℤ) : ℚ) = (H : ℚ) := by push_cast; ring
  have hWq : ((W : ℤ) : ℚ) = (W : ℚ) := by push_cast; ring
  simp only [headCropRect]
  have hbotPos : (0 : ℚ) ≤ min (H : ℚ) ((b : ℚ) + ((b : ℚ) - (t : ℚ)) * (1/4)) := by
    apply le_min (Nat.cast_nonneg H)
    linarith
  have hrightPos : (0 : ℚ) ≤ min (W : ℚ) ((r : ℚ) + ((r : ℚ) - (l : ℚ)) * (1/10)) := by
    apply le_min (Nat.cast_nonneg W)
    linarith
  have h1 : 0 ≤ pyInt (max 0 ((t : ℚ) - ((b : ℚ) - (t : ℚ)) * (1/2))) :=
    pyInt_nonneg (le_max_left _ _)
  have h2 : pyInt (max 0 ((t : ℚ) - ((b : ℚ) - (t : ℚ)) * (1/2))) ≤ t := by
    apply pyInt_le_intCast (le_max_left _ _)
    apply max_le htq
    linarith
  have h3 : b ≤ pyInt (min (H : ℚ) ((b : ℚ) + ((b : ℚ) - (t : ℚ)) * (1/4))) := by
    apply intCast_le_pyInt hbotPos
    apply le_min hbHq
    linarith
  have h4 : pyInt (min (H : ℚ) ((b : ℚ) + ((b : ℚ) - (t : ℚ)) * (1/4))) ≤ (H : ℤ) := by
    apply pyInt_le_intCast hbotPos
    rw [hHq]
    exact min_le_left _ _
  have h5 : 0 ≤ pyInt (max 0 ((l : ℚ) - ((r : ℚ) - (l : ℚ)) * (1/10))) :=
    pyInt_nonneg (le_max_left _ _)
  have h6 : pyInt (max 0 ((l : ℚ) - ((r : ℚ) - (l : ℚ)) * (1/10))) ≤ l := by
    apply pyInt_le_intCast (le_max_left _ _)
    apply max_le hlq
    linarith
  have h7 : r ≤ pyInt (min (W : ℚ) ((r : ℚ) + ((r : ℚ) - (l : ℚ)) * (1/10))) := by
    apply intCast_le_pyInt hrightPos
    apply le_min hrWq
    linarith
  have h8 : pyInt (min (W : ℚ) ((r : ℚ) + ((r : ℚ) - (l : ℚ)) * (1/10))) ≤ (W : ℤ) := by
    apply pyInt_le_intCast hrightPos
    rw [hWq]
    exact min_le_left _ _
  exact ⟨h1, le_trans h2 (le_trans htb h3), h4, h5, le_trans h6 (le_trans hlr h7), h8⟩

/-- C6 counterexample: at top = 1, bottom = 2 the code's head_top is the
truncated 0, not the claimed untruncated max(0, top - 0.5(bottom - top))
= 1/2. -/
theorem C6_counterexample :
    ((headCropRect 10 10 1 2 2 0).top : ℚ)
      ≠ max 0 ((1 : ℚ) - ((2 : ℚ) - (1 : ℚ)) * (1/2)) := by
  have htop : (headCropRect 10 10 1 2 2 0).top = 0 := by
    simp only [headCropRect]
    have hx : ((1 : ℤ) : ℚ) - (((2 : ℤ) : ℚ) - ((1 : ℤ) : ℚ)) * (1/2) = 1/2 := by norm_num
    rw [hx, max_eq_right (by norm_num : (0 : ℚ) ≤ 1/2),
      pyInt_of_nonneg (by norm_num : (0 : ℚ) ≤ 1/2), Int.floor_eq_iff]
    norm_num
  have hy : (1 : ℚ) - ((2 : ℚ) - (1 : ℚ)) * (1/2) = 1/2 := by norm_num
  rw [htop, hy, max_eq_right (by norm_num : (0 : ℚ) ≤ 1/2)]
  norm_num

/-- C6 witness: containment for a concrete in-frame face rect. -/
theorem C6_head_rect_contained_witness :
    0 ≤ (headCropRect 100 100 10 30 40 5).top ∧
    (headCropRect 100 100 10 30 40 5).top ≤ (headCropRect 100 100 10 30 40 5).bottom ∧
    (headCropRect 100 100 10 30 40 5).bottom ≤ ((100 : ℕ) : ℤ) ∧
    0 ≤ (headCropRect 100 100 10 30 40 5).left ∧
    (headCropRect 100 100 10 30 40 5).left ≤ (headCropRect 100 100 10 30 40 5).right ∧
    (headCropRect 100 100 10 30 40 5).right ≤ ((100 : ℕ) : ℤ) :=
  C6_head_rect_contained 100 100 10 30 40 5 (by decide) (by decide) (by decide)
    (by decide) (by decide) (by decide)

/-! C4 — orientation correction. -/

/-- C4: correct_orientation rotates by 180 / 270 / 90 degrees for EXIF
Orientation values 3 / 6 / 8, returns the input unchanged for any other
value or when the metadata is absent, and in the identity case repeated
application is idempotent; the function is total, modelling that
metadata errors are swallowed. -/
theorem C4_correct_orientation (img : PILImage) :
    (exifOrientation img = some 3 → correct_orientation img = rotate180 img) ∧
    (exifOrientation img = some 6 → correct_orientation img = rotate270 img) ∧
    (exifOrientation img = some 8 → correct_orientation img = rotate90 img) ∧
    (∀ v, exifOrientation img = some v → v ≠ 3 → v ≠ 6 → v ≠ 8 →
      correct_orientation img = img) ∧
    (exifOrientation img = none →
      correct_orientation img = img ∧
      correct_orientation (correct_orientation img) = correct_orientation img) := by
  rcases himg : img.exif with _ | e
  · have ho : exifOrientation img = none := by simp [exifOrientation, himg]
    have hco : correct_orientation img = img := by simp [correct_orientation, himg]
    refine ⟨?_, ?_, ?_, ?_, ?_⟩
    · intro h
      rw [ho] at h
      cases h
    · intro h
      rw [ho] at h
      cases h
    · intro h
      rw [ho] at h
      cases h
    · intro v h
      rw [ho] at h
      cases h
    · intro _
      refine ⟨hco, ?_⟩
      rw [hco]
      exact hco
  · rcases hlk : exifLookup e orientationTag with _ | v
    · have ho : exifOrientation img = none := by simp [exifOrientation, himg, hlk]
      have hco : correct_orientation img = img := by simp [correct_orientation, himg, hlk]
      refine ⟨?_, ?_, ?_, ?_, ?_⟩
      · intro h
        rw [ho] at h
        cases h
      · intro h
        rw [ho] at h
        cases h
      · intro h
        rw [ho] at h
        cases h
      · intro v h
        rw [ho] at h
        cases h
      · intro _
        refine ⟨hco, ?_⟩
        rw [hco]
        exact hco
    · have ho : exifOrientation img = some v := by simp [exifOrientation, himg, hlk]
      refine ⟨?_, ?_, ?_, ?_, ?_⟩
      · intro h
        have hv : v = 3 := by
          rw [ho] at h
          exact Option.some.inj h
        simp [correct_orientation, himg, hlk, hv]
      · intro h
        have hv : v = 6 := by
          rw [ho] at h
          exact Option.some.inj h
        simp [correct_orientation, himg, hlk, hv]
      · intro h
        have hv : v = 8 := by
          rw [ho] at h
          exact Option.some.inj h
        simp [correct_orientation, himg, hlk, hv]
      · intro u hu h3 h6 h8
        have hv : v = u := by
          rw [ho] at hu
          exact Option.some.inj hu
        subst hv
        simp [correct_orientation, himg, hlk, h3, h6, h8]
      · intro h
        rw [ho] at h
        cases h

/-- C4 witness: the rotation case at Orientation 3 and the idempotent
identity case with no metadata. -/
theorem C4_correct_orientation_witness :
    correct_orientation exImg3 = rotate180 exImg3 ∧
    correct_orientation (correct_orientation exImgNone) = correct_orientation exImgNone := by
  constructor
  · exact (C4_correct_orientation exImg3).1 rfl
  · exact ((C4_correct_orientation exImgNone).2.2.2.2 rfl).2

/-! C5 — grabCut background removal and the alpha channel. -/

/-- C5 (amended): the alpha channel is strictly binary (0 or 255);
every pixel the mask classifies as background (class 0 or 2) has alpha
0; a pixel classified as foreground (class 1 or 3) has alpha 255 exactly
when the grayscale of its colour is nonzero — a black foreground pixel
gets alpha 0. -/
theorem C5_grabcut_alpha (img : CVImage) (gcMask : ℕ → ℕ → ℕ) (x y : ℕ) :
    (alphaOf ((remove_background_using_grabcut img gcMask).px x y) = 0 ∨
     alphaOf ((remove_background_using_grabcut img gcMask).px x y) = 255) ∧
    (gcMask y x = 0 ∨ gcMask y x = 2 →
      alphaOf ((remove_background_using_grabcut img gcMask).px x y) = 0) ∧
    (¬(gcMask y x = 0 ∨ gcMask y x = 2) →
      (alphaOf ((remove_background_using_grabcut img gcMask).px x y) = 255 ↔
        0 < bgr2gray (img.px y x).1 (img.px y x).2.1 (img.px y x).2.2)) := by
  refine ⟨?_, ?_, ?_⟩
  · simp only [remove_background_using_grabcut, alphaOf, threshBinary]
    split
    · right
      rfl
    · left
      rfl
  · intro hm
    have hk : gcKeep (gcMask y x) = 0 := by
      rcases hm with h | h <;> simp [gcKeep, h]
    simp [remove_background_using_grabcut, alphaOf, hk, bgr2gray, threshBinary]
  · intro hm
    have hk : gcKeep (gcMask y x) = 1 := by
      rw [gcKeep, if_neg]
      tauto
    simp only [remove_background_using_grabcut, alphaOf, hk, mul_one, threshBinary]
    split
    · next hpos => simp [hpos]
    · next hpos => simp [hpos]

/-- C5 counterexample: a pure black pixel classified as definite
foreground (class 1) receives alpha 0, not the claimed 255. -/
theorem C5_counterexample :
    gcKeep (fgMask 0 0) = 1 ∧
    alphaOf ((remove_background_using_grabcut blackImg fgMask).px 0 0) = 0 ∧
    alphaOf ((remove_background_using_grabcut blackImg fgMask).px 0 0) ≠ 255 := by
  decide

/-- C5 witness: the amended statement applied to a background-classified
pixel and to a bright foreground-classified pixel. -/
theorem C5_grabcut_alpha_witness :
    alphaOf ((remove_background_using_grabcut colorImg bgMask).px 0 0) = 0 ∧
    alphaOf ((remove_background_using_grabcut colorImg fgMask3).px 0 0) = 255 := by
  constructor
  · exact (C5_grabcut_alpha colorImg bgMask 0 0).2.1 (Or.inl rfl)
  · exact ((C5_grabcut_alpha colorImg fgMask3 0 0).2.2 (by decide)).mpr (by decide)

/-! C7 and C8 — tags and the one-crop-per-frame policy. -/

/-- C7: when landmark detection returns nothing on the selected face
crop, the feature tags are exactly the fixed fallback list, and for
every face crop the head-region tags are exactly \x7bhead, face\x7d
united with the feature tags. -/
theorem C7_feature_tags (frame : CVImage) (faces : List FaceLoc) (choice : ℕ)
    (detect : CVImage → List Landmarks) (c : Pix3) (f : ℕ → ℕ → Pix3)
    (hne : faces ≠ []) :
    (detect (faceCropOf frame (selectedFace faces choice)) = [] →
      (get_random_face_crop_and_tags frame faces choice detect c f).2.1
        = ["face", "forehead", "eye_region", "nose_region", "mouth_region", "chin_region"]) ∧
    (∀ tg : String,
      tg ∈ (get_random_face_crop_and_tags frame faces choice detect c f).2.2.2 ↔
        (tg = "head" ∨ tg = "face" ∨
          tg ∈ (get_random_face_crop_and_tags frame faces choice detect c f).2.1)) := by
  constructor
  · intro hd
    simp [get_random_face_crop_and_tags, hne, hd]
  · intro tg
    rcases hd : detect (faceCropOf frame (selectedFace faces choice)) with _ | lms
    · simp [get_random_face_crop_and_tags, hne, hd]
    · simp [get_random_face_crop_and_tags, hne, hd]

/-- C7 witness: fallback tags and head tags on a concrete frame with one
face and a landmark detector that finds nothing. -/
theorem C7_feature_tags_witness :
    (get_random_face_crop_and_tags frame1 oneFace 0 noLandmarks (0, 0, 0) pxZero3).2.1
      = ["face", "forehead", "eye_region", "nose_region", "mouth_region", "chin_region"] ∧
    ("nose_region" ∈ (get_random_face_crop_and_tags frame1 oneFace 0 noLandmarks
        (0, 0, 0) pxZero3).2.2.2 ↔
      ("nose_region" = "head" ∨ "nose_region" = "face" ∨
        "nose_region" ∈ (get_random_face_crop_and_tags frame1 oneFace 0 noLandmarks
          (0, 0, 0) pxZero3).2.1)) := by
  have h := C7_feature_tags frame1 oneFace 0 noLandmarks (0, 0, 0) pxZero3 (by decide)
  exact ⟨h.1 rfl, h.2 "nose_region"⟩

/-- C8: with zero detected faces no crop is produced; with at least one
detected face exactly one crop pair is produced — one feature crop and
one head crop, both of the single face selected by the injected random
index — and every detected face is selectable by some index value. -/
theorem C8_single_crop (frame : CVImage) (faces : List FaceLoc) (choice : ℕ)
    (detect : CVImage → List Landmarks) (c : Pix3) (f : ℕ → ℕ → Pix3) :
    (faces = [] →
      get_random_face_crop_and_tags frame faces choice detect c f = (none, [], none, [])) ∧
    (faces ≠ [] →
      (get_random_face_crop_and_tags frame faces choice detect c f).1
        = some (faceCropOf frame (selectedFace faces choice)) ∧
      (get_random_face_crop_and_tags frame faces choice detect c f).2.2.1
        = some (headCropOf frame (selectedFace faces choice) c f)) ∧
    (∀ i : Fin faces.length, selectedFace faces (i : ℕ) = faces.get i) := by
  refine ⟨?_, ?_, ?_⟩
  · intro h
    simp [get_random_face_crop_and_tags, h]
  · intro h
    constructor
    · simp [get_random_face_crop_and_tags, h]
    · simp [get_random_face_crop_and_tags, h]
  · intro i
    have hi : (i : ℕ) % faces.length = (i : ℕ) := Nat.mod_eq_of_lt i.isLt
    simp only [selectedFace, hi]
    rw [List.getD_eq_getElem faces (0, 0, 0, 0) i.isLt]
    simp [List.get_eq_getElem]

/-- C8 witness: the empty-faces case and the one-face case evaluated. -/
theorem C8_single_crop_witness :
    get_random_face_crop_and_tags frame1 [] 0 noLandmarks (0, 0, 0) pxZero3
      = (none, [], none, []) ∧
    (get_random_face_crop_and_tags frame1 oneFace 5 noLandmarks (0, 0, 0) pxZero3).1
      = some (faceCropOf frame1 (selectedFace oneFace 5)) := by
  constructor
  · exact (C8_single_crop frame1 [] 0 noLandmarks (0, 0, 0) pxZero3).1 rfl
  · exact ((C8_single_crop frame1 oneFace 5 noLandmarks (0, 0, 0) pxZero3).2.1 (by decide)).1

/-! C2 — the dataset layout generator. -/

/-- C2: process_images creates under the target root exactly the nested
tree \x7broot\x7d/\x7b3n\x7d_\x7bclassName\x7d/dest/img/ containing log,
model and the leaf "\x7b3n\x7d_\x7bclassName\x7d \x7bloraName\x7d"; for
n = 40, className = "woman", loraName = "m4rni" the intermediate
directory is "120_woman" and the leaf "120_woman m4rni". -/
theorem C2_layout (root : FsPath) (lora_name class_name : String) (n : ℕ) :
    process_images_dirs root lora_name class_name n
      = claimedLayout root lora_name class_name n ∧
    process_images_dirs ["root"] "m4rni" "woman" 40
      = [["root", "120_woman"],
         ["root", "120_woman", "dest"],
         ["root", "120_woman", "dest", "img"],
         ["root", "120_woman", "dest", "img", "log"],
         ["root", "120_woman", "dest", "img", "model"],
         ["root", "120_woman", "dest", "img", "120_woman m4rni"]] := by
  constructor
  · simp [process_images_dirs, claimedLayout]
  · decide

/-! C3 — sequence numbering of output files. -/

lemma outputLoop_eq (files : List SourceFile) (seq : ℕ) (fmt : String) :
    outputLoop seq files fmt
      = (List.range (files.countP (fun g => is_valid_image g))).map
          (fun i => "image_" ++ toString (seq + i) ++ "." ++ strLower fmt) := by
  induction files generalizing seq with
  | nil => simp [outputLoop]
  | cons fhd rest ih =>
    cases hv : is_valid_image fhd with
    | true =>
      simp only [outputLoop, hv, if_true, List.countP_cons]
      rw [ih (seq + 1)]
      rw [List.range_succ_eq_map, List.map_cons, List.map_map]
      congr 1
      apply List.map_congr_left
      intro a _
      have hsa : seq + 1 + a = seq + (a + 1) := by omega
      simp [Function.comp, hsa]
    | false =>
      simp only [outputLoop, hv, if_false, List.countP_cons]
      rw [ih seq]
      simp

/-- C3: output names are image_\x7bsequenceNumber\x7d.\x7bformat\x7d
with the sequence starting at 1 and advancing exactly once per file that
passes is_valid_image, so the numbers are gap-free; with 5 source files
of which the third is corrupt the outputs are image_1 .. image_4 and
never image_5. -/
theorem C3_sequence_numbers (files : List SourceFile) (fmt : String) :
    process_images_names files fmt
      = (List.range (files.countP (fun g => is_valid_image g))).map
          (fun i => "image_" ++ toString (i + 1) ++ "." ++ strLower fmt) ∧
    process_images_names [⟨true⟩, ⟨true⟩, ⟨false⟩, ⟨true⟩, ⟨true⟩] "PNG"
      = ["image_1.png", "image_2.png", "image_3.png", "image_4.png"] ∧
    "image_5.png" ∉ process_images_names [⟨true⟩, ⟨true⟩, ⟨false⟩, ⟨true⟩, ⟨true⟩] "PNG" := by
  refine ⟨?_, ?_, ?_⟩
  · rw [process_images_names, outputLoop_eq]
    apply List.map_congr_left
    intro a _
    have hsa : 1 + a = a + 1 := by omega
    rw [hsa]
  · decide
  · decide

/-! C9 — the orientation stage inside process_image is the identity. -/

/-- C9: because remove_background_using_grabcut ends in Image.fromarray,
which yields a fresh image with no EXIF metadata, the orientation stage
of process_image is the identity and the full pipeline equals the
pipeline with that stage removed. -/
theorem C9_orientation_stage_identity (input : CVImage) (gcMask : ℕ → ℕ → ℕ)
    (size : ℕ) (resample : ℕ → ℕ → Pix4) :
    process_image input gcMask size resample
      = process_image_noOrient input gcMask size resample := rfl

/-! C10 — make_square_and_resize geometry. -/

lemma round_aspect_toNat_le {v : ℚ} {key : ℤ → ℚ} {n : ℕ} (h1 : 1 ≤ n)
    (hv : v ≤ (n : ℚ)) : (round_aspect v key).toNat ≤ n := by
  have hvz : v ≤ ((n : ℤ) : ℚ) := by exact_mod_cast hv
  have hceil : ⌈v⌉ ≤ (n : ℤ) := Int.ceil_le.mpr hvz
  have hfloor : ⌊v⌋ ≤ (n : ℤ) := le_trans (Int.floor_le_ceil v) hceil
  have hsel : (if key ⌊v⌋ ≤ key ⌈v⌉ then ⌊v⌋ else ⌈v⌉) ≤ (n : ℤ) := by
    split
    · exact hfloor
    · exact hceil
  have hone : (1 : ℤ) ≤ (n : ℤ) := by exact_mod_cast h1
  simp only [round_aspect]
  exact Int.toNat_le.mpr (max_le hsel hone)

lemma thumbnailTarget_le {w h : ℕ} (size : ℕ) (hs : 1 ≤ size) :
    (thumbnailTarget w h size).1.toNat ≤ size ∧
    (thumbnailTarget w h size).2.toNat ≤ size := by
  by_cases hc : (1 : ℚ) ≥ (w : ℚ) / (h : ℚ)
  · have ht1 : (thumbnailTarget w h size).1
        = round_aspect ((size : ℚ) * ((w : ℚ) / (h : ℚ)))
            (fun n => |(w : ℚ) / (h : ℚ) - (n : ℚ) / (size : ℚ)|) := by
      unfold thumbnailTarget
      rw [if_pos hc]
    have ht2 : (thumbnailTarget w h size).2 = (size : ℤ) := by
      unfold thumbnailTarget
      rw [if_pos hc]
    have hv1 : (size : ℚ) * ((w : ℚ) / (h : ℚ)) ≤ (size : ℚ) := by
      calc (size : ℚ) * ((w : ℚ) / (h : ℚ))
          ≤ (size : ℚ) * 1 := mul_le_mul_of_nonneg_left hc (Nat.cast_nonneg size)
        _ = (size : ℚ) := mul_one _
    constructor
    · rw [ht1]
      exact round_aspect_toNat_le hs hv1
    · rw [ht2]
      simp
  · have hgt : (1 : ℚ) < (w : ℚ) / (h : ℚ) := lt_of_not_ge hc
    have ht1 : (thumbnailTarget w h size).1 = (size : ℤ) := by
      unfold thumbnailTarget
      rw [if_neg hc]
    have ht2 : (thumbnailTarget w h size).2
        = round_aspect ((size : ℚ) / ((w : ℚ) / (h : ℚ)))
            (fun n => if n = 0 then 0 else |(w : ℚ) / (h : ℚ) - (size : ℚ) / (n : ℚ)|) := by
      unfold thumbnailTarget
      rw [if_neg hc]
    have hv2 : (size : ℚ) / ((w : ℚ) / (h : ℚ)) ≤ (size : ℚ) :=
      div_le_self (Nat.cast_nonneg size) (le_of_lt hgt)
    constructor
    · rw [ht1]
      simp
    · rw [ht2]
      exact round_aspect_toNat_le hs hv2

lemma thumbnail_dims_le (img : PILImage) (size : ℕ) (f : ℕ → ℕ → Pix4) (hs : 1 ≤ size) :
    (thumbnail img size f).width ≤ size ∧ (thumbnail img size f).height ≤ size := by
  by_cases hc : img.width ≤ size ∧ img.height ≤ size
  · have hth : thumbnail img size f = img := by
      unfold thumbnail
      rw [if_pos hc]
    rw [hth]
    exact hc
  · have hth : thumbnail img size f
        = { width := (thumbnailTarget img.width img.height size).1.toNat
            height := (thumbnailTarget img.width img.height size).2.toNat
            px := f
            exif := img.exif } := by
      unfold thumbnail
      rw [if_neg hc]
    rw [hth]
    exact ⟨(thumbnailTarget_le size hs).1, (thumbnailTarget_le size hs).2⟩

/-- The PIL box rounding of one axis of the center crop: its extent is
exactly the short side whenever the short side is even or the axis has
the short side's parity. -/
lemma crop_side (d s : ℕ) (hsd : s ≤ d) (hpar : s % 2 = 0 ∨ (d - s) % 2 = 0) :
    pyRound (((d : ℚ) + (s : ℚ)) / 2) - pyRound (((d : ℚ) - (s : ℚ)) / 2) = (s : ℤ) := by
  rcases Nat.even_or_odd (d - s) with he | ho
  · obtain ⟨k, hk⟩ := he
    have hd : d = s + 2 * k := by omega
    subst hd
    have e1 : (((s + 2 * k : ℕ) : ℚ) - (s : ℚ)) / 2 = ((k : ℤ) : ℚ) := by
      push_cast
      ring
    have e2 : (((s + 2 * k : ℕ) : ℚ) + (s : ℚ)) / 2 = (((s : ℤ) + (k : ℤ) : ℤ) : ℚ) := by
      push_cast
      ring
    rw [e1, e2, pyRound_intCast, pyRound_intCast]
    ring
  · obtain ⟨k, hk⟩ := ho
    have hs2 : s % 2 = 0 := by
      rcases hpar with hp | hp
      · exact hp
      · omega
    have hd : d = s + 2 * k + 1 := by omega
    subst hd
    have e1 : (((s + 2 * k + 1 : ℕ) : ℚ) - (s : ℚ)) / 2 = ((k : ℤ) : ℚ) + 1/2 := by
      push_cast
      ring
    have e2 : (((s + 2 * k + 1 : ℕ) : ℚ) + (s : ℚ)) / 2
        = (((s : ℤ) + (k : ℤ) : ℤ) : ℚ) + 1/2 := by
      push_cast
      ring
    rw [e1, e2, pyRound_int_add_half, pyRound_int_add_half]
    omega

/-- Under the parity condition the rounded center crop is exactly square
with side min(width, height). -/
lemma crop_square_dims (img : PILImage)
    (hpar : min img.width img.height % 2 = 0 ∨ img.width % 2 = img.height % 2) :
    (pilCrop img
        (((img.width : ℚ) - ((min img.width img.height : ℕ) : ℚ)) / 2)
        (((img.height : ℚ) - ((min img.width img.height : ℕ) : ℚ)) / 2)
        (((img.width : ℚ) + ((min img.width img.height : ℕ) : ℚ)) / 2)
        (((img.height : ℚ) + ((min img.width img.height : ℕ) : ℚ)) / 2)).width
      = min img.width img.height ∧
    (pilCrop img
        (((img.width : ℚ) - ((min img.width img.height : ℕ) : ℚ)) / 2)
        (((img.height : ℚ) - ((min img.width img.height : ℕ) : ℚ)) / 2)
        (((img.width : ℚ) + ((min img.width img.height : ℕ) : ℚ)) / 2)
        (((img.height : ℚ) + ((min img.width img.height : ℕ) : ℚ)) / 2)).height
      = min img.width img.height := by
  have hsw : min img.width img.height ≤ img.width := min_le_left _ _
  have hsh : min img.width img.height ≤ img.height := min_le_right _ _
  have hparW : min img.width img.height % 2 = 0
      ∨ (img.width - min img.width img.height) % 2 = 0 := by
    rcases hpar with hp | hp
    · exact Or.inl hp
    · right
      rcases le_total img.width img.height with hle | hle
      · rw [min_eq_left hle]
        omega
      · rw [min_eq_right hle]
        omega
  have hparH : min img.width img.height % 2 = 0
      ∨ (img.height - min img.width img.height) % 2 = 0 := by
    rcases hpar with hp | hp
    · exact Or.inl hp
    · right
      rcases le_total img.width img.height with hle | hle
      · rw [min_eq_left hle]
        omega
      · rw [min_eq_right hle]
        omega
  constructor
  · simp only [pilCrop]
    rw [crop_side img.width (min img.width img.height) hsw hparW]
    exact Int.toNat_ofNat _
  · simp only [pilCrop]
    rw [crop_side img.height (min img.width img.height) hsh hparH]
    exact Int.toNat_ofNat _

/-- thumbnail on an s × s image yields min s size on both axes. -/
lemma thumbnail_dims_of_square (cimg : PILImage) (s size : ℕ) (f : ℕ → ℕ → Pix4)
    (hw : cimg.width = s) (hh : cimg.height = s) (hs1 : 1 ≤ s) (hs : 1 ≤ size) :
    (thumbnail cimg size f).width = min s size ∧
    (thumbnail cimg size f).height = min s size := by
  by_cases hss : s ≤ size
  · have hcond : cimg.width ≤ size ∧ cimg.height ≤ size := by
      rw [hw, hh]
      exact ⟨hss, hss⟩
    have hth : thumbnail cimg size f = cimg := by
      unfold thumbnail
      rw [if_pos hcond]
    rw [hth, hw, hh, min_eq_left hss]
    exact ⟨rfl, rfl⟩
  · have hcond : ¬(cimg.width ≤ size ∧ cimg.height ≤ size) := by
      rw [hw, hh]
      intro hcon
      exact hss hcon.1
    have hth : thumbnail cimg size f
        = { width := (thumbnailTarget cimg.width cimg.height size).1.toNat
            height := (thumbnailTarget cimg.width cimg.height size).2.toNat
            px := f
            exif := cimg.exif } := by
      unfold thumbnail
      rw [if_neg hcond]
    have hzn : ((s : ℚ)) ≠ 0 := Nat.cast_ne_zero.mpr (by omega)
    have htt : thumbnailTarget cimg.width cimg.height size = ((size : ℤ), (size : ℤ)) := by
      unfold thumbnailTarget
      rw [hw, hh, div_self hzn, if_pos (le_refl (1 : ℚ)), mul_one]
      have hra : round_aspect ((size : ℕ) : ℚ)
          (fun n => |(1 : ℚ) - (n : ℚ) / ((size : ℕ) : ℚ)|) = (size : ℤ) := by
        simp only [round_aspect]
        rw [Int.floor_natCast, Int.ceil_natCast, ite_self]
        exact max_eq_left (by exact_mod_cast hs)
      rw [hra]
    have hmin : min s size = size := min_eq_right (le_of_not_le hss)
    rw [hth]
    constructor
    · simp [htt, hmin]
    · simp [htt, hmin]

/-- C10 (amended): both output dimensions of make_square_and_resize are
at most size; whenever the shorter input side is even or width and
height share parity, the center crop is exactly square and the output is
square with side min(shorter side, size) — in particular an input whose
shorter side is at most size is not upscaled; in the remaining
odd-parity case PIL's half-to-even box rounding makes the crop sides
differ by one, so the output need not be square. -/
theorem C10_make_square_and_resize (img : PILImage) (size : ℕ) (f : ℕ → ℕ → Pix4)
    (hw : 1 ≤ img.width) (hh : 1 ≤ img.height) (hs : 1 ≤ size) :
    (make_square_and_resize img size f).width ≤ size ∧
    (make_square_and_resize img size f).height ≤ size ∧
    (min img.width img.height % 2 = 0 ∨ img.width % 2 = img.height % 2 →
      (make_square_and_resize img size f).width = min (min img.width img.height) size ∧
      (make_square_and_resize img size f).height = min (min img.width img.height) size) := by
  have hdef : make_square_and_resize img size f
      = thumbnail (pilCrop img
          (((img.width : ℚ) - ((min img.width img.height : ℕ) : ℚ)) / 2)
          (((img.height : ℚ) - ((min img.width img.height : ℕ) : ℚ)) / 2)
          (((img.width : ℚ) + ((min img.width img.height : ℕ) : ℚ)) / 2)
          (((img.height : ℚ) + ((min img.width img.height : ℕ) : ℚ)) / 2)) size f := rfl
  refine ⟨?_, ?_, ?_⟩
  · rw [hdef]
    exact (thumbnail_dims_le _ size f hs).1
  · rw [hdef]
    exact (thumbnail_dims_le _ size f hs).2
  · intro hpar
    obtain ⟨hcw, hch⟩ := crop_square_dims img hpar
    rw [hdef]
    exact thumbnail_dims_of_square _ (min img.width img.height) size f hcw hch
      (le_min hw hh) hs

/-- C10 counterexample: a 4-wide, 3-high input at size 512 comes out
4 × 3 — not square. -/
theorem C10_counterexample :
    (make_square_and_resize pimg43 512 pxZero4).width
      ≠ (make_square_and_resize pimg43 512 pxZero4).height := by
  have hdef : make_square_and_resize pimg43 512 pxZero4
      = thumbnail (pilCrop pimg43
          (((pimg43.width : ℚ) - ((min pimg43.width pimg43.height : ℕ) : ℚ)) / 2)
          (((pimg43.height : ℚ) - ((min pimg43.width pimg43.height : ℕ) : ℚ)) / 2)
          (((pimg43.width : ℚ) + ((min pimg43.width pimg43.height : ℕ) : ℚ)) / 2)
          (((pimg43.height : ℚ) + ((min pimg43.width pimg43.height : ℕ) : ℚ)) / 2))
        512 pxZero4 := rfl
  have hmin : min pimg43.width pimg43.height = 3 := by decide
  have hwq : (pimg43.width : ℚ) = 4 := by norm_num [pimg43]
  have hhq : (pimg43.height : ℚ) = 3 := by norm_num [pimg43]
  rw [hdef, hmin, hwq, hhq]
  have hA : ((4 : ℚ) - ((3 : ℕ) : ℚ)) / 2 = ((0 : ℤ) : ℚ) + 1/2 := by norm_num
  have hB : ((3 : ℚ) - ((3 : ℕ) : ℚ)) / 2 = ((0 : ℤ) : ℚ) := by norm_num
  have hC : ((4 : ℚ) + ((3 : ℕ) : ℚ)) / 2 = ((3 : ℤ) : ℚ) + 1/2 := by norm_num
  have hD : ((3 : ℚ) + ((3 : ℕ) : ℚ)) / 2 = ((3 : ℤ) : ℚ) := by norm_num
  rw [hA, hB, hC, hD]
  have hw4 : (pilCrop pimg43 (((0 : ℤ) : ℚ) + 1/2) ((0 : ℤ) : ℚ)
      (((3 : ℤ) : ℚ) + 1/2) ((3 : ℤ) : ℚ)).width = 4 := by
    simp only [pilCrop]
    rw [pyRound_int_add_half, pyRound_int_add_half]
    decide
  have hh3 : (pilCrop pimg43 (((0 : ℤ) : ℚ) + 1/2) ((0 : ℤ) : ℚ)
      (((3 : ℤ) : ℚ) + 1/2) ((3 : ℤ) : ℚ)).height = 3 := by
    simp only [pilCrop]
    rw [pyRound_intCast, pyRound_intCast]
    decide
  have hcond : (pilCrop pimg43 (((0 : ℤ) : ℚ) + 1/2) ((0 : ℤ) : ℚ)
        (((3 : ℤ) : ℚ) + 1/2) ((3 : ℤ) : ℚ)).width ≤ 512 ∧
      (pilCrop pimg43 (((0 : ℤ) : ℚ) + 1/2) ((0 : ℤ) : ℚ)
        (((3 : ℤ) : ℚ) + 1/2) ((3 : ℤ) : ℚ)).height ≤ 512 := by
    rw [hw4, hh3]
    exact ⟨by norm_num, by norm_num⟩
  have hthumb : thumbnail (pilCrop pimg43 (((0 : ℤ) : ℚ) + 1/2) ((0 : ℤ) : ℚ)
        (((3 : ℤ) : ℚ) + 1/2) ((3 : ℤ) : ℚ)) 512 pxZero4
      = pilCrop pimg43 (((0 : ℤ) : ℚ) + 1/2) ((0 : ℤ) : ℚ)
        (((3 : ℤ) : ℚ) + 1/2) ((3 : ℤ) : ℚ) := by
    unfold thumbnail
    rw [if_pos hcond]
  rw [hthumb, hw4, hh3]
  norm_num

/-- C10 witness: the amended statement evaluated on a 6 × 6 input. -/
theorem C10_make_square_and_resize_witness :
    (make_square_and_resize pimg66 512 pxZero4).width = 6 ∧
    (make_square_and_resize pimg66 512 pxZero4).height = 6 := by
  have h := C10_make_square_and_resize pimg66 512 pxZero4 (by decide) (by decide) (by decide)
  have h2 := h.2.2 (by decide)
  exact ⟨h2.1.trans (by decide), h2.2.trans (by decide)⟩

end KohyaPrep
